import Mathlib

/-!
Shallow embedding of `prep_files.py` (music-metadata-machine).

The program renames music folders/files to a normalized layout and derives
audio metadata tags from the directory structure.  Paths are modelled as
lists of path segments (`List String`); the filesystem as a list of
entries (path plus a directory flag); the tag codec (mutagen) as an
explicit association from paths to optional tag dictionaries, `none`
standing for "the codec cannot open this file" (`mutagen.File` returning
`None`).

The regular expressions of the source are embedded as deterministic
matching functions that follow Python `re` semantics for the concrete
patterns involved (anchored `re.match`, greedy and lazy repetition with
backtracking, `$` also matching before a single trailing newline, and `.`
never matching a newline).  The character classes model the ASCII
fragment of Python's Unicode-aware `\d`, `\s` and `\w`, as do the
models of `str.strip`, `str.lower`.
-/

namespace PrepFiles

/-- ASCII decimal digit: the ASCII fragment of Python's `\d`. -/
def isPyDigit (c : Char) : Bool :=
  '0' ≤ c && c ≤ '9'

/-- ASCII whitespace: the ASCII fragment of Python's `\s`. -/
def isPySpace (c : Char) : Bool :=
  c = ' ' || c = '\t' || c = '\n' || c = '\x0d' || c = '\x0b' || c = '\x0c'

/-- ASCII word character: the ASCII fragment of Python's `\w`. -/
def isWordChar (c : Char) : Bool :=
  ('a' ≤ c && c ≤ 'z') || ('A' ≤ c && c ≤ 'Z') || isPyDigit c || c = '_'

/-- Python `str.strip()` (ASCII fragment), on a character list. -/
def pyStripList (cs : List Char) : List Char :=
  ((cs.dropWhile isPySpace).reverse.dropWhile isPySpace).reverse

/-- Python `str.strip()` (ASCII fragment). -/
def pyStrip (s : String) : String :=
  ⟨pyStripList s.toList⟩

/-- Python `str.lower()` (ASCII fragment). -/
def pyLower (s : String) : String :=
  ⟨s.toList.map Char.toLower⟩

/-- Value of a decimal digit string, as produced by Python `int` on a
string of digits (used for the `\d{1,3}` track-number group). -/
def digitsToNat (ds : List Char) : Nat :=
  ds.foldl (fun n c => 10 * n + (c.toNat - '0'.toNat)) 0

/-- Matcher for the tail pattern `(.+)$`, applied to the whole remaining
input `r` (whose first character is known not to be matched by a
preceding `\s*`; `r` is what is left after the greedy `\s*` stopped).
In Python `re`, `.` does not match a newline and `$` matches at the end
of the string or just before a trailing newline.  Returns the group. -/
def dotPlusEnd (r : List Char) : Option (List Char) :=
  match r.getLast? with
  | none => none
  | some c =>
    if c = '\n' then
      if r.dropLast ≠ [] && !(r.dropLast.contains '\n') then some r.dropLast else none
    else
      if !(r.contains '\n') then some r else none

/-- Matcher for `\s*(.+)$` against the whole remaining input `t`.
The greedy `\s*` first takes the maximal whitespace run; if the `(.+)$`
tail cannot match what is left, backtracking only helps when `t` is
whitespace-only (a shorter `\s*` then leaves a single whitespace
character for the group). -/
def wsThenDotPlusEnd (t : List Char) : Option (List Char) :=
  match t.dropWhile isPySpace with
  | r@(_ :: _) => dotPlusEnd r
  | [] =>
    -- t is all whitespace: `.+` must take exactly one non-newline character,
    -- with `$` allowing one trailing newline after it.
    match t.getLast? with
    | none => none
    | some c =>
      if c = '\n' then
        match t.dropLast.getLast? with
        | some c2 => if c2 ≠ '\n' then some [c2] else none
        | none => none
      else some [c]

/-- `ALBUM_DIR_PATTERN = re.compile(r"^(?P<year>\d{4})\s*-\s*(?P<album>.+)$")`
used with `re.match`.  Returns `(year group, album group)`. -/
def albumDirMatch : List Char → Option (List Char × List Char)
  | d1 :: d2 :: d3 :: d4 :: rest =>
    if isPyDigit d1 && isPyDigit d2 && isPyDigit d3 && isPyDigit d4 then
      match rest.dropWhile isPySpace with
      | '-' :: t => (wsThenDotPlusEnd t).map (fun g => ([d1, d2, d3, d4], g))
      | _ => none
    else none
  | _ => none

/-- `TRACK_FILE_PATTERN = re.compile(r"^(?P<num>\d{1,3})\s*-\s*(?P<title>.+)$")`
used with `re.match`.  The greedy `\d{1,3}` takes all leading digits; if
there are more than three, every backtracking alternative leaves a digit
where `-` is required, so the whole match fails.  Returns
`(num group, title group)`. -/
def trackFileMatch (s : List Char) : Option (List Char × List Char) :=
  let ds := s.takeWhile isPyDigit
  if 1 ≤ ds.length && ds.length ≤ 3 then
    match (s.dropWhile isPyDigit).dropWhile isPySpace with
    | '-' :: t => (wsThenDotPlusEnd t).map (fun g => (ds, g))
    | _ => none
  else none

/-- `normalized_album_name(name, album_format)` from the source.  The
format template is modelled as the rendered function of its two fields
(`album`, `year`). -/
def normalized_album_name (name : String) (album_format : String → String → String) :
    Option String :=
  match albumDirMatch name.toList with
  | none => none
  | some (year, albumGroup) =>
    let album := pyStrip ⟨albumGroup⟩
    let normalized := album_format album ⟨year⟩
    if normalized ≠ name then some normalized else none

/-- `normalized_track_name(stem, track_format)` from the source.  The
format template is modelled as the rendered function of its two fields
(`track` as the parsed integer, `title`). -/
def normalized_track_name (stem : String) (track_format : Nat → String → String) :
    Option String :=
  match trackFileMatch stem.toList with
  | none => none
  | some (numGroup, titleGroup) =>
    let track_no := digitsToNat numGroup
    let title := pyStrip ⟨titleGroup⟩
    let normalized := track_format track_no title
    if normalized ≠ stem then some normalized else none

/-- The default `--album-format` template, rendered: album, space, year in
parentheses. -/
def defaultAlbumFormat (album year : String) : String :=
  album ++ " (" ++ year ++ ")"

/-- The default `--track-format` template, rendered: the track number
zero-padded to width two, a space, the title. -/
def defaultTrackFormat (track : Nat) (title : String) : String :=
  (if track < 10 then "0" ++ toString track else toString track) ++ " " ++ title

/-- Python `pathlib` stem/suffix split of a file name: the suffix is the
part from the last dot on, provided that dot is neither the first nor the
last character of the name; otherwise the suffix is empty and the stem is
the whole name. -/
def splitName (name : String) : String × String :=
  let cs := name.toList
  match cs.reverse.findIdx? (· = '.') with
  | none => (name, "")
  | some j =>
    let i := cs.length - 1 - j
    if 0 < i && i < cs.length - 1 then (⟨cs.take i⟩, ⟨cs.drop i⟩) else (name, "")

/-- One filesystem node seen by `Path.rglob`, relative to the scan root:
its path segments and whether it is a directory. -/
structure FsEntry where
  path : List String
  isDir : Bool
deriving DecidableEq

/-- `RenameAction` from the source (`kind` is the string `"dir"` or
`"file"`; `source` and `target` are paths relative to the root). -/
structure RenameAction where
  kind : String
  source : List String
  target : List String
deriving DecidableEq

/-- `str(path)` for a relative path: segments joined by `/`
(the `relative_source` / `relative_target` properties). -/
def pathStr (p : List String) : String :=
  String.intercalate "/" p

/-- The last segment of a path, `Path.name`; empty for the empty path
(Python's `Path(".").name`). -/
def segName (p : List String) : String :=
  p.getLast?.getD ""

/-- `gather_rename_actions(root, album_format, track_format)`: the files
pass.  For each regular file whose stem matches the track rule, an action
renaming it within its directory; the `target != path` test of the source
is the final guard.  The loop-with-append of the source is the
`filterMap` of this per-entry function over the `rglob` enumeration. -/
def gatherFileAction (track_format : Nat → String → String) (e : FsEntry) :
    Option RenameAction :=
  if e.isDir then none
  else
    match normalized_track_name (splitName (segName e.path)).1 track_format with
    | none => none
    | some normalizedStem =>
      if e.path.dropLast ++ [normalizedStem ++ (splitName (segName e.path)).2] ≠ e.path then
        some ⟨"file", e.path,
              e.path.dropLast ++ [normalizedStem ++ (splitName (segName e.path)).2]⟩
      else none

/-- `gather_rename_actions`: the directories pass, applying the album
rule to each directory name. -/
def gatherDirAction (album_format : String → String → String) (e : FsEntry) :
    Option RenameAction :=
  if !e.isDir then none
  else
    match normalized_album_name (segName e.path) album_format with
    | none => none
    | some normalizedDir =>
      if e.path.dropLast ++ [normalizedDir] ≠ e.path then
        some ⟨"dir", e.path, e.path.dropLast ++ [normalizedDir]⟩
      else none

/-- `gather_rename_actions(root, album_format, track_format)` from the
source: all file actions (in scan order), then all directory actions. -/
def gather_rename_actions (entries : List FsEntry)
    (album_format : String → String → String)
    (track_format : Nat → String → String) : List RenameAction :=
  entries.filterMap (gatherFileAction track_format)
    ++ entries.filterMap (gatherDirAction album_format)

/-- Whether a path currently exists on the modelled filesystem
(`Path.exists`). -/
def pathExistsB (fs : List FsEntry) (p : List String) : Bool :=
  fs.any (fun e => e.path == p)

/-- Effect of `src.rename(dst)` on one path: a node at or below the
source moves with it; every other node is untouched. -/
def renamePath (src dst p : List String) : List String :=
  if src.isPrefixOf p then dst ++ p.drop src.length else p

/-- Effect of `src.rename(dst)` on the whole filesystem. -/
def renameFS (fs : List FsEntry) (src dst : List String) : List FsEntry :=
  fs.map (fun e => { e with path := renamePath src dst e.path })

/-- One line of per-action output of `apply_rename_actions`:
`[OK]`, `[SKIP] source missing`, or `[SKIP] target already exists`. -/
inductive RenameEvent where
  | applied (a : RenameAction)
  | skippedSourceMissing (a : RenameAction)
  | skippedTargetExists (a : RenameAction)
deriving DecidableEq

/-- State threaded through the apply loop of `apply_rename_actions`:
the filesystem, the `applied` counter, and the log of per-action
reports. -/
structure ApplyState where
  fs : List FsEntry
  applied : Nat
  log : List RenameEvent
deriving DecidableEq

/-- The body of the apply loop of `apply_rename_actions`: check the
source, then the target, then perform the rename. -/
def applyOneRename (st : ApplyState) (a : RenameAction) : ApplyState :=
  if !pathExistsB st.fs a.source then
    { st with log := st.log ++ [.skippedSourceMissing a] }
  else if pathExistsB st.fs a.target then
    { st with log := st.log ++ [.skippedTargetExists a] }
  else
    { fs := renameFS st.fs a.source a.target
      applied := st.applied + 1
      log := st.log ++ [.applied a] }

/-- Python string comparison (code-point lexicographic `<=`) on character
lists, as used by `sorted(..., key=lambda a: a.relative_source)`. -/
def charListLe : List Char → List Char → Bool
  | [], _ => true
  | _ :: _, [] => false
  | a :: as, b :: bs => if a = b then charListLe as bs else decide (a < b)

/-- Sort key order of the file pass: source path string, ascending. -/
def fileOrd (a b : RenameAction) : Prop :=
  charListLe (pathStr a.source).toList (pathStr b.source).toList = true

instance : DecidableRel fileOrd := fun _ _ =>
  inferInstanceAs (Decidable (_ = true))

/-- Sort key order of the directory pass: number of path segments,
descending (`key=len(Path(...).parts), reverse=True`; for a relative
path of nonempty segments, `len(parts)` is the segment count). -/
def dirOrd (a b : RenameAction) : Prop :=
  b.source.length ≤ a.source.length

instance : DecidableRel dirOrd := fun _ _ =>
  inferInstanceAs (Decidable (_ ≤ _))

/-- The execution order of `apply_rename_actions`: file actions sorted by
source string ascending, then directory actions sorted deepest first.
(`List.insertionSort` is a stable sort, like Python's `sorted`.) -/
def orderedRenameActions (actions : List RenameAction) : List RenameAction :=
  List.insertionSort fileOrd (actions.filter (fun a => a.kind == "file"))
    ++ List.insertionSort dirOrd (actions.filter (fun a => a.kind == "dir"))

/-- `apply_rename_actions(root, actions)` from the source, acting on the
modelled filesystem; returns the final filesystem, the `applied` count
and the per-action log. -/
def apply_rename_actions (fs : List FsEntry) (actions : List RenameAction) : ApplyState :=
  (orderedRenameActions actions).foldl applyOneRename ⟨fs, 0, []⟩

/-- The hypothetical order the specification compares against: the same
two sorted blocks, but with the directory actions executed first. -/
def apply_rename_actions_dirs_first (fs : List FsEntry) (actions : List RenameAction) :
    ApplyState :=
  (List.insertionSort dirOrd (actions.filter (fun a => a.kind == "dir"))
      ++ List.insertionSort fileOrd (actions.filter (fun a => a.kind == "file"))).foldl
    applyOneRename ⟨fs, 0, []⟩

/-- Number of `[SKIP] source missing` reports in an apply log. -/
def countSourceMissing (log : List RenameEvent) : Nat :=
  log.countP (fun ev => match ev with | .skippedSourceMissing _ => true | _ => false)

/-- Normalization applied to a confirmation prompt answer:
`input(...).strip().lower()`. -/
def pyAnswerNorm (s : String) : String :=
  pyLower (pyStrip s)

/-- `run_filenames(root, album_format, track_format, yes)` from the
source, with the answer the user would give at the prompt passed in.
Returns the exit code and the resulting filesystem. -/
def run_filenames (entries : List FsEntry)
    (album_format : String → String → String)
    (track_format : Nat → String → String)
    (yes : Bool) (answer : String) : Nat × List FsEntry :=
  if (gather_rename_actions entries album_format track_format).isEmpty then (0, entries)
  else if !yes && !(["y", "yes"].contains (pyAnswerNorm answer)) then (0, entries)
  else (0, (apply_rename_actions entries
              (gather_rename_actions entries album_format track_format)).fs)

/-- `AUDIO_EXTENSIONS` from the source. -/
def AUDIO_EXTENSIONS : List String :=
  [".aac", ".aiff", ".alac", ".ape", ".flac", ".m4a", ".mp3", ".mp4",
   ".ogg", ".oga", ".opus", ".wav", ".wma"]

/-- A tag dictionary (Python `dict` of string keys and values, in
insertion order). -/
abbrev TagDict := List (String × String)

/-- Dictionary lookup with a default, Python `d.get(k, dflt)`. -/
def dictGetD (d : TagDict) (k : String) (dflt : String) : String :=
  ((d.find? (fun kv => kv.1 == k)).map (·.2)).getD dflt

/-- `MetadataAction` from the source. -/
structure MetadataAction where
  file_path : List String
  updates : TagDict
  current : TagDict
deriving DecidableEq

/-- The tag codec (mutagen), modelled as an association from full paths
to what `mutagen.File(path, easy=True)` yields: `none` when the codec
cannot read the file (the source's `audio is None` case), otherwise the
easy-tag dictionary currently stored in the file. -/
abbrev CodecState := List (List String × Option TagDict)

/-- `mutagen_file(path)` from the source: what the codec yields for a
path (a path absent from the codec state reads as unsupported). -/
def mutagen_file (σ : CodecState) (p : List String) : Option TagDict :=
  match σ.find? (fun e => e.1 == p) with
  | some e => e.2
  | none => none

/-- `is_audio_file(path)` from the source: a regular file whose
lower-cased suffix is in the extension allow-list. -/
def is_audio_file (e : FsEntry) : Bool :=
  !e.isDir && AUDIO_EXTENSIONS.contains (pyLower (splitName (segName e.path)).2)

/-- `ALBUM_PATTERN = re.compile(r"^(?P<album>.+?)\s*\((?P<year>\d{4})\)$")`:
the suffix part `\s*\(\d{4}\)$` matched against the rest of the input
after the lazy album group.  The greedy `\s*` is deterministic here: if
the character after the whitespace run is not `(`, shorter runs leave a
whitespace character where `(` is required. -/
def albumYearSuffix (t : List Char) : Option (List Char) :=
  match t.dropWhile isPySpace with
  | '(' :: d1 :: d2 :: d3 :: d4 :: ')' :: tail =>
    if (isPyDigit d1 && isPyDigit d2 && isPyDigit d3 && isPyDigit d4)
        && (tail = [] || tail = ['\n']) then
      some [d1, d2, d3, d4]
    else none
  | _ => none

/-- The lazy search of `ALBUM_PATTERN`: the album group `.+?` grows one
character at a time (never across a newline, which `.` cannot match)
until the suffix pattern matches what follows.  `acc` is the group built
so far. -/
def albumYearGo (acc : List Char) : List Char → Option (List Char × List Char)
  | [] => none
  | c :: rest =>
    if c = '\n' then none
    else
      match albumYearSuffix rest with
      | some year => some (acc ++ [c], year)
      | none => albumYearGo (acc ++ [c]) rest

/-- `ALBUM_PATTERN` used with `re.match`: returns
`(album group, year group)`. -/
def albumYearMatch (s : List Char) : Option (List Char × List Char) :=
  albumYearGo [] s

/-- `TRACK_PATTERN = re.compile(r"^(?P<track>\d{2})\b")` used with
`re.match`: two leading digits followed by a word boundary (a digit is a
word character, so the third character must be absent or not a word
character). -/
def trackPrefixMatch (s : List Char) : Option (List Char) :=
  match s with
  | a :: b :: rest =>
    if isPyDigit a && isPyDigit b
        && (match rest with | [] => true | c :: _ => !isWordChar c) then
      some [a, b]
    else none
  | _ => none

/-- `derive_metadata_for_file(path)` from the source: derives the seven
tags from the grandparent (artist), parent (album and year) and stem
(track number) of the path. -/
def derive_metadata_for_file (p : List String) : Option TagDict :=
  match albumYearMatch (segName p.dropLast).toList with
  | none => none
  | some (albumGroup, yearGroup) =>
    match trackPrefixMatch (splitName (segName p)).1.toList with
    | none => none
    | some trackGroup =>
      if pyStrip ⟨albumGroup⟩ = "" || pyStrip (segName p.dropLast.dropLast) = "" then none
      else
        some [("album", pyStrip ⟨albumGroup⟩), ("date", ⟨yearGroup⟩),
              ("year", ⟨yearGroup⟩), ("tracknumber", ⟨trackGroup⟩),
              ("artist", pyStrip (segName p.dropLast.dropLast)),
              ("albumartist", pyStrip (segName p.dropLast.dropLast)),
              ("author", pyStrip (segName p.dropLast.dropLast))]

/-- `read_current_tags(path, desired_keys)` from the source: an
unreadable file yields no current tags; otherwise each desired key
present in the file contributes its stored value. -/
def read_current_tags (σ : CodecState) (p : List String) (desired : List String) : TagDict :=
  match mutagen_file σ p with
  | none => []
  | some tags =>
    desired.filterMap (fun k =>
      ((tags.find? (fun kv => kv.1 == k)).map (·.2)).map (fun v => (k, v)))

/-- The body of the scan loop of `gather_metadata_actions`, for one
`rglob` entry: derive the tags, read the current ones, keep the pairs
that differ (a missing current value reads as the empty string), and
record an action only when something is left. -/
def gatherOneMetadata (root : List String) (σ : CodecState) (e : FsEntry) :
    Option MetadataAction :=
  if !is_audio_file e then none
  else
    match derive_metadata_for_file (root ++ e.path) with
    | none => none
    | some updates =>
      if (updates.filter (fun kv =>
            !(dictGetD (read_current_tags σ (root ++ e.path) (updates.map (·.1)))
                kv.1 "" == kv.2))).isEmpty then
        none
      else
        some ⟨e.path,
              updates.filter (fun kv =>
                !(dictGetD (read_current_tags σ (root ++ e.path) (updates.map (·.1)))
                    kv.1 "" == kv.2)),
              read_current_tags σ (root ++ e.path) (updates.map (·.1))⟩

/-- `gather_metadata_actions(root)` from the source, over the `rglob`
enumeration of root-relative entries and the codec state. -/
def gather_metadata_actions (root : List String) (entries : List FsEntry)
    (σ : CodecState) : List MetadataAction :=
  entries.filterMap (gatherOneMetadata root σ)

/-- Order in which `apply_metadata_actions` processes actions: file path
string, ascending. -/
def metaOrd (a b : MetadataAction) : Prop :=
  charListLe (pathStr a.file_path).toList (pathStr b.file_path).toList = true

instance : DecidableRel metaOrd := fun _ _ =>
  inferInstanceAs (Decidable (_ = true))

/-- Writing one easy tag, `audio[key] = [value]`: replace the stored
value if the key exists, otherwise append the key. -/
def writeTag (tags : TagDict) (k v : String) : TagDict :=
  if tags.any (fun kv => kv.1 == k) then
    tags.map (fun kv => if kv.1 == k then (k, v) else kv)
  else tags ++ [(k, v)]

/-- `audio.save()` after writing every key of `updates` into the codec
entry of one path. -/
def writeTagsAt (σ : CodecState) (p : List String) (updates : TagDict) : CodecState :=
  σ.map (fun e =>
    if e.1 == p then (e.1, e.2.map (fun tags => updates.foldl (fun ts kv => writeTag ts kv.1 kv.2) tags))
    else e)

/-- `apply_metadata_actions(root, actions)` from the source: sorted by
path; a file the codec cannot re-open is skipped, every other action
writes its updates and counts. -/
def apply_metadata_actions (root : List String) (σ : CodecState)
    (actions : List MetadataAction) : CodecState × Nat :=
  (List.insertionSort metaOrd actions).foldl
    (fun st a =>
      match mutagen_file st.1 (root ++ a.file_path) with
      | none => st
      | some _ => (writeTagsAt st.1 (root ++ a.file_path) a.updates, st.2 + 1))
    (σ, 0)

/-- `run_metadata(root, yes)` from the source.  The runtime probe for the
mutagen dependency is passed as a flag; the confirmation answer as a
string.  The model's scan and apply are total, so the `except` branches
of the source (which return exit code 1) have no counterpart here.
Returns the exit code and the resulting codec state. -/
def run_metadata (mutagenAvailable : Bool) (root : List String)
    (entries : List FsEntry) (σ : CodecState) (yes : Bool) (answer : String) :
    Nat × CodecState :=
  if !mutagenAvailable then (1, σ)
  else if (gather_metadata_actions root entries σ).isEmpty then (0, σ)
  else if !yes && !(["y", "yes"].contains (pyAnswerNorm answer)) then (0, σ)
  else (0, (apply_metadata_actions root σ (gather_metadata_actions root entries σ)).1)

/-- The `--apply` branch of `main()`: run the rename pipeline
non-interactively, and only if it returned zero run the metadata
pipeline non-interactively on the renamed tree.  The codec state is the
tag state of the tree at the time the metadata phase runs. -/
def main_apply (mutagenAvailable : Bool) (root : List String)
    (entries : List FsEntry) (σ : CodecState)
    (album_format : String → String → String)
    (track_format : Nat → String → String) : Nat :=
  let r := run_filenames entries album_format track_format true ""
  if r.1 ≠ 0 then r.1
  else (run_metadata mutagenAvailable root r.2 σ true "").1

/-! ## Theorems about the embedded program -/

/-- If `trackPrefixMatch` succeeds, its group is the first two characters
of the input. -/
theorem trackPrefixMatch_eq_take {s g : List Char} (h : trackPrefixMatch s = some g) :
    g = s.take 2 := by
  match s with
  | [] => simp [trackPrefixMatch] at h
  | [a] => simp [trackPrefixMatch] at h
  | a :: b :: rest =>
    simp only [trackPrefixMatch] at h
    split at h
    · simp only [Option.some.injEq] at h
      simp [← h]
    · cases h

/-- Claim C7: for the audio file at relative path
`Daft Punk/Discovery (2001)/01 One More Time.flac`,
`derive_metadata_for_file` returns exactly the seven-key mapping with
`album = "Discovery"`, `date = year = "2001"`, `tracknumber = "01"`, and
`artist = albumartist = author = "Daft Punk"`. -/
theorem C7_metadata_example :
    derive_metadata_for_file ["Daft Punk", "Discovery (2001)", "01 One More Time.flac"]
      = some [("album", "Discovery"), ("date", "2001"), ("year", "2001"),
              ("tracknumber", "01"), ("artist", "Daft Punk"),
              ("albumartist", "Daft Punk"), ("author", "Daft Punk")] := by
  decide

/-- Claim C2, counterexample: the stem `"100 Title"` does start with two
digits, but `TRACK_PATTERN`'s word boundary fails after `"10"` (the next
character `'0'` is a word character), so no track number is extracted
and `derive_metadata_for_file` derives nothing at all for
`100 Title.flac` — not `tracknumber = "10"` as the claim states. -/
theorem C2_counterexample :
    ("100 Title".toList.take 2).all isPyDigit = true
    ∧ trackPrefixMatch "100 Title".toList = none
    ∧ derive_metadata_for_file ["Daft Punk", "Discovery (2001)", "100 Title.flac"]
        = none := by
  decide

/-- Claim C2, amended: the track-number-prefix rule extracts the first
two characters of the stem only when they are digits followed by a word
boundary (end of stem, or a non-word character); when the third
character is a word character — as in `"100 Title"` — the rule does not
match.  Whenever `derive_metadata_for_file` succeeds, the derived
`tracknumber` is the first two characters of the stem. -/
theorem C2_track_rule :
    (∀ (a b : Char) (rest : List Char), isPyDigit a = true → isPyDigit b = true →
      ((rest = [] ∨ ∃ c t, rest = c :: t ∧ isWordChar c = false) →
          trackPrefixMatch (a :: b :: rest) = some [a, b])
      ∧ (∀ c t, rest = c :: t → isWordChar c = true →
          trackPrefixMatch (a :: b :: rest) = none))
    ∧ (∀ (p : List String) (u : TagDict), derive_metadata_for_file p = some u →
        dictGetD u "tracknumber" "" = ⟨(splitName (segName p)).1.toList.take 2⟩) := by
  constructor
  · intro a b rest ha hb
    constructor
    · intro hrest
      rcases hrest with rfl | ⟨c, t, rfl, hc⟩
      · simp [trackPrefixMatch, ha, hb]
      · simp [trackPrefixMatch, ha, hb, hc]
    · intro c t hct hc
      subst hct
      simp [trackPrefixMatch, ha, hb, hc]
  · intro p u h
    unfold derive_metadata_for_file at h
    split at h
    · cases h
    · split at h
      · cases h
      · rename_i trackGroup htr
        split at h
        · cases h
        · cases h
          show String.mk trackGroup = _
          rw [trackPrefixMatch_eq_take htr]

/-- Claim C2, witness for the amended statement: the stem
`"01 One More Time"` matches and yields the two-character group, and the
Daft Punk example derives `tracknumber = "01"`, the first two stem
characters. -/
theorem C2_track_rule_witness :
    trackPrefixMatch ("01 One More Time".toList) = some ['0', '1']
    ∧ dictGetD [("album", "Discovery"), ("date", "2001"), ("year", "2001"),
                ("tracknumber", "01"), ("artist", "Daft Punk"),
                ("albumartist", "Daft Punk"), ("author", "Daft Punk")]
        "tracknumber" ""
      = ⟨(splitName (segName ["Daft Punk", "Discovery (2001)",
            "01 One More Time.flac"])).1.toList.take 2⟩ :=
  ⟨(C2_track_rule.1 '0' '1' (' ' :: "One More Time".toList)
      (by decide) (by decide)).1
      (Or.inr ⟨' ', "One More Time".toList, rfl, by decide⟩),
   C2_track_rule.2 ["Daft Punk", "Discovery (2001)", "01 One More Time.flac"] _
      (by decide)⟩

/-- A file action produced by the files pass has `target ≠ source`. -/
theorem gatherFileAction_target_ne {track_format e a}
    (h : gatherFileAction track_format e = some a) : a.target ≠ a.source := by
  unfold gatherFileAction at h
  split at h
  · cases h
  · split at h
    · cases h
    · split at h
      · next hne => cases h; simpa using hne
      · cases h

/-- A directory action produced by the directories pass has
`target ≠ source`. -/
theorem gatherDirAction_target_ne {album_format e a}
    (h : gatherDirAction album_format e = some a) : a.target ≠ a.source := by
  unfold gatherDirAction at h
  split at h
  · cases h
  · split at h
    · cases h
    · split at h
      · next hne => cases h; simpa using hne
      · cases h

/-- Claim C4: for every scan and every album/track format template,
every action in the list returned by `gather_rename_actions` satisfies
`target ≠ source` — no no-op rename action is ever materialized. -/
theorem C4_no_noop_actions :
    ∀ (entries : List FsEntry)
      (album_format : String → String → String)
      (track_format : Nat → String → String)
      (a : RenameAction),
      a ∈ gather_rename_actions entries album_format track_format →
      a.target ≠ a.source := by
  intro entries album_format track_format a ha
  rw [gather_rename_actions, List.mem_append] at ha
  rcases ha with h | h <;> rw [List.mem_filterMap] at h <;> obtain ⟨e, -, he⟩ := h
  · exact gatherFileAction_target_ne he
  · exact gatherDirAction_target_ne he

/-- Claim C4, witness: the single-file scan of `1 - t.flac` produces the
concrete action renaming it to `01 t.flac`, whose target differs from
its source. -/
theorem C4_no_noop_actions_witness :
    (⟨"file", ["1 - t.flac"], ["01 t.flac"]⟩ : RenameAction).target
      ≠ (⟨"file", ["1 - t.flac"], ["01 t.flac"]⟩ : RenameAction).source :=
  C4_no_noop_actions [⟨["1 - t.flac"], false⟩] defaultAlbumFormat defaultTrackFormat
    _ (by decide)

/-- Claim C6: per-action semantics of `apply_rename_actions`.  A missing
source is skipped with the "source missing" report; an existing target
is skipped with the "target already exists" report and nothing on the
filesystem changes (no overwrite); otherwise the rename is performed and
the applied count is incremented.  A skipped action never stops the run:
the fold always continues with the remaining actions. -/
theorem C6_per_action_semantics :
    ∀ (st : ApplyState) (a : RenameAction),
      (pathExistsB st.fs a.source = false →
        applyOneRename st a = { st with log := st.log ++ [.skippedSourceMissing a] })
      ∧ (pathExistsB st.fs a.source = true → pathExistsB st.fs a.target = true →
        applyOneRename st a = { st with log := st.log ++ [.skippedTargetExists a] }
        ∧ (applyOneRename st a).fs = st.fs
        ∧ (applyOneRename st a).applied = st.applied)
      ∧ (pathExistsB st.fs a.source = true → pathExistsB st.fs a.target = false →
        applyOneRename st a =
          ⟨renameFS st.fs a.source a.target, st.applied + 1, st.log ++ [.applied a]⟩)
      ∧ (∀ rest : List RenameAction,
        (a :: rest).foldl applyOneRename st = rest.foldl applyOneRename (applyOneRename st a)) := by
  intro st a
  refine ⟨?_, ?_, ?_, fun rest => rfl⟩
  · intro h
    simp [applyOneRename, h]
  · intro hs ht
    refine ⟨?_, ?_, ?_⟩ <;> simp [applyOneRename, hs, ht]
  · intro hs ht
    simp [applyOneRename, hs, ht]

/-- Claim C6, witness: the three per-action outcomes and the continuation
equation, at concrete states — a missing source, an occupied target, and
a clean rename. -/
theorem C6_per_action_semantics_witness :
    applyOneRename ⟨[], 0, []⟩ ⟨"file", ["x"], ["y"]⟩
      = ⟨[], 0, [.skippedSourceMissing ⟨"file", ["x"], ["y"]⟩]⟩
    ∧ applyOneRename ⟨[⟨["x"], false⟩, ⟨["y"], false⟩], 0, []⟩ ⟨"file", ["x"], ["y"]⟩
      = ⟨[⟨["x"], false⟩, ⟨["y"], false⟩], 0,
         [.skippedTargetExists ⟨"file", ["x"], ["y"]⟩]⟩
    ∧ applyOneRename ⟨[⟨["x"], false⟩], 0, []⟩ ⟨"file", ["x"], ["y"]⟩
      = ⟨renameFS [⟨["x"], false⟩] ["x"] ["y"], 1, [.applied ⟨"file", ["x"], ["y"]⟩]⟩
    ∧ ([⟨"file", ["x"], ["y"]⟩] : List RenameAction).foldl applyOneRename ⟨[], 0, []⟩
      = ([] : List RenameAction).foldl applyOneRename
          (applyOneRename ⟨[], 0, []⟩ ⟨"file", ["x"], ["y"]⟩) :=
  ⟨(C6_per_action_semantics ⟨[], 0, []⟩ ⟨"file", ["x"], ["y"]⟩).1 (by decide),
   ((C6_per_action_semantics ⟨[⟨["x"], false⟩, ⟨["y"], false⟩], 0, []⟩
      ⟨"file", ["x"], ["y"]⟩).2.1 (by decide) (by decide)).1,
   (C6_per_action_semantics ⟨[⟨["x"], false⟩], 0, []⟩
      ⟨"file", ["x"], ["y"]⟩).2.2.1 (by decide) (by decide),
   (C6_per_action_semantics ⟨[], 0, []⟩ ⟨"file", ["x"], ["y"]⟩).2.2.2 []⟩

/-- Claim C8: a file the codec cannot read yields an empty current-tags
mapping, and the scan is per-file — the actions of a scan decompose
around any entry, so one unreadable file never stops the remaining
entries from being processed. -/
theorem C8_codec_failure_continues :
    ∀ (root : List String) (σ : CodecState) (entries₁ entries₂ : List FsEntry)
      (e : FsEntry) (keys : List String),
      (mutagen_file σ (root ++ e.path) = none →
        read_current_tags σ (root ++ e.path) keys = [])
      ∧ gather_metadata_actions root (entries₁ ++ e :: entries₂) σ
        = gather_metadata_actions root entries₁ σ
          ++ gather_metadata_actions root [e] σ
          ++ gather_metadata_actions root entries₂ σ := by
  intro root σ entries₁ entries₂ e keys
  constructor
  · intro h
    unfold read_current_tags
    rw [h]
  · unfold gather_metadata_actions
    rw [List.filterMap_append]
    cases h : gatherOneMetadata root σ e <;> simp [List.filterMap_cons, h]

/-- Claim C8, witness: with an empty codec state every read fails, the
current tags of the Daft Punk file are empty, and the scan decomposition
holds around it. -/
theorem C8_codec_failure_continues_witness :
    read_current_tags []
      ["Daft Punk", "Discovery (2001)", "01 One More Time.flac"] ["album"] = []
    ∧ gather_metadata_actions [] ([] ++
        (⟨["Daft Punk", "Discovery (2001)", "01 One More Time.flac"], false⟩ : FsEntry)
          :: [⟨["Daft Punk", "Discovery (2001)", "02 Aerodynamic.flac"], false⟩]) []
      = gather_metadata_actions [] [] []
        ++ gather_metadata_actions []
            [⟨["Daft Punk", "Discovery (2001)", "01 One More Time.flac"], false⟩] []
        ++ gather_metadata_actions []
            [⟨["Daft Punk", "Discovery (2001)", "02 Aerodynamic.flac"], false⟩] [] :=
  ⟨(C8_codec_failure_continues [] [] [] [] ⟨["Daft Punk", "Discovery (2001)",
      "01 One More Time.flac"], false⟩ ["album"]).1 rfl,
   (C8_codec_failure_continues [] [] []
      [⟨["Daft Punk", "Discovery (2001)", "02 Aerodynamic.flac"], false⟩]
      ⟨["Daft Punk", "Discovery (2001)", "01 One More Time.flac"], false⟩ ["album"]).2⟩

/-- Claim C9: when the trimmed, lower-cased confirmation answer is not
`y` or `yes` (the empty string included), both `run_filenames` and
`run_metadata` (with the codec dependency present) return exit code 0
and leave the filesystem and the stored tags untouched. -/
theorem C9_decline_no_changes :
    ∀ (entries : List FsEntry)
      (album_format : String → String → String)
      (track_format : Nat → String → String)
      (root : List String) (σ : CodecState) (answer : String),
      ["y", "yes"].contains (pyAnswerNorm answer) = false →
      run_filenames entries album_format track_format false answer = (0, entries)
      ∧ run_metadata true root entries σ false answer = (0, σ) := by
  intro entries album_format track_format root σ answer h
  have hc : (!false && !(["y", "yes"].contains (pyAnswerNorm answer))) = true := by
    rw [h]
    rfl
  have h2 : ¬(pyAnswerNorm answer = "y" ∨ pyAnswerNorm answer = "yes") := by
    simpa using h
  constructor
  · simp [run_filenames, h]
    intro _ h1
    exact absurd (h1 (fun e => h2 (Or.inl e))) (fun e => h2 (Or.inr e))
  · simp [run_metadata, h]
    intro _ h1
    exact absurd (h1 (fun e => h2 (Or.inl e))) (fun e => h2 (Or.inr e))

/-- Claim C9, witness: declining with answer `"n"` on a concrete
one-file tree changes nothing and exits 0 in both pipelines. -/
theorem C9_decline_no_changes_witness :
    run_filenames [⟨["1 - t.flac"], false⟩] defaultAlbumFormat defaultTrackFormat
      false "n" = (0, [⟨["1 - t.flac"], false⟩])
    ∧ run_metadata true [] [⟨["Daft Punk", "Discovery (2001)", "01 One More Time.flac"], false⟩]
        [] false "n" = (0, []) :=
  ⟨(C9_decline_no_changes [⟨["1 - t.flac"], false⟩] defaultAlbumFormat defaultTrackFormat
      [] [] "n" (by decide)).1,
   (C9_decline_no_changes [⟨["Daft Punk", "Discovery (2001)", "01 One More Time.flac"], false⟩]
      defaultAlbumFormat defaultTrackFormat [] [] "n" (by decide)).2⟩

/-- The exit code of `run_filenames` is 0 on every execution. -/
theorem run_filenames_fst_eq_zero
    (entries : List FsEntry) (album_format : String → String → String)
    (track_format : Nat → String → String) (yes : Bool) (answer : String) :
    (run_filenames entries album_format track_format yes answer).1 = 0 := by
  unfold run_filenames
  split
  · rfl
  · split <;> rfl

/-- Claim C10: `run_filenames` returns exit code 0 for every root, every
format template pair and every confirmation outcome, so the rename
pipeline has no nonzero-exit path; consequently the `--apply` branch of
`main` always reaches the metadata pipeline — its guard on the rename
exit code is vacuous. -/
theorem C10_rename_exit_zero :
    ∀ (entries : List FsEntry)
      (album_format : String → String → String)
      (track_format : Nat → String → String)
      (yes : Bool) (answer : String)
      (mutagenAvailable : Bool) (root : List String) (σ : CodecState),
      (run_filenames entries album_format track_format yes answer).1 = 0
      ∧ main_apply mutagenAvailable root entries σ album_format track_format
        = (run_metadata mutagenAvailable root
            (run_filenames entries album_format track_format true "").2 σ true "").1 := by
  intro entries album_format track_format yes answer mutagenAvailable root σ
  refine ⟨run_filenames_fst_eq_zero .., ?_⟩
  unfold main_apply
  simp [run_filenames_fst_eq_zero]

/-- Claim C3: for every file kept by the metadata scan, its `updates`
mapping is exactly the derived pairs whose derived value differs from
the stored one (a missing stored value reads as the empty string, hence
as different), and it is never empty; when the difference is empty, no
action carrying that file's path is produced at all. -/
theorem C3_effective_updates :
    ∀ (root : List String) (entries : List FsEntry) (σ : CodecState),
      (∀ a ∈ gather_metadata_actions root entries σ,
        a.updates ≠ []
        ∧ ∃ u, derive_metadata_for_file (root ++ a.file_path) = some u
          ∧ a.current = read_current_tags σ (root ++ a.file_path) (u.map (·.1))
          ∧ a.updates = u.filter (fun kv => !(dictGetD a.current kv.1 "" == kv.2)))
      ∧ (∀ e ∈ entries, ∀ u,
          derive_metadata_for_file (root ++ e.path) = some u →
          u.filter (fun kv =>
            !(dictGetD (read_current_tags σ (root ++ e.path) (u.map (·.1)))
                kv.1 "" == kv.2)) = [] →
          ∀ a ∈ gather_metadata_actions root entries σ, a.file_path ≠ e.path) := by
  intro root entries σ
  constructor
  · intro a ha
    rw [gather_metadata_actions, List.mem_filterMap] at ha
    obtain ⟨e, -, he⟩ := ha
    unfold gatherOneMetadata at he
    split at he
    · cases he
    · split at he
      · cases he
      · rename_i u hu
        split at he
        · cases he
        · rename_i hne
          cases he
          constructor
          · intro h0
            have h1 : u.filter (fun kv =>
                !(dictGetD (read_current_tags σ (root ++ e.path) (u.map (·.1)))
                    kv.1 "" == kv.2)) = [] := h0
            rw [h1] at hne
            exact hne rfl
          · exact ⟨u, hu, rfl, rfl⟩
  · intro e _ u hu hempty a ha hpath
    rw [gather_metadata_actions, List.mem_filterMap] at ha
    obtain ⟨e', -, he'⟩ := ha
    unfold gatherOneMetadata at he'
    split at he'
    · cases he'
    · split at he'
      · cases he'
      · rename_i u' hu'
        split at he'
        · cases he'
        · rename_i hne
          cases he'
          have hp : e'.path = e.path := hpath
          rw [hp] at hu' hne
          rw [hu] at hu'
          obtain rfl := Option.some.inj hu'
          rw [hempty] at hne
          exact hne rfl

/-- Claim C3, witness: with no stored tags, the Daft Punk file produces
an action whose `updates` mapping (all seven derived pairs) is
nonempty. -/
theorem C3_effective_updates_witness :
    (⟨["Daft Punk", "Discovery (2001)", "01 One More Time.flac"],
      [("album", "Discovery"), ("date", "2001"), ("year", "2001"),
       ("tracknumber", "01"), ("artist", "Daft Punk"),
       ("albumartist", "Daft Punk"), ("author", "Daft Punk")], []⟩
        : MetadataAction).updates ≠ [] :=
  ((C3_effective_updates []
      [⟨["Daft Punk", "Discovery (2001)", "01 One More Time.flac"], false⟩] []).1
    _ (by decide)).1

/-- If the album-directory pattern matches, the input starts with four
digits. -/
theorem albumDirMatch_four_digits {s y g : List Char}
    (h : albumDirMatch s = some (y, g)) :
    4 ≤ s.length ∧ (s.take 4).all isPyDigit = true := by
  match s with
  | [] => simp [albumDirMatch] at h
  | [a] => simp [albumDirMatch] at h
  | [a, b] => simp [albumDirMatch] at h
  | [a, b, c] => simp [albumDirMatch] at h
  | d1 :: d2 :: d3 :: d4 :: rest =>
    simp only [albumDirMatch] at h
    split at h
    · rename_i hd
      refine ⟨by simp, ?_⟩
      show ([d1, d2, d3, d4].all isPyDigit) = true
      have hd' : ((isPyDigit d1 = true ∧ isPyDigit d2 = true) ∧ isPyDigit d3 = true)
          ∧ isPyDigit d4 = true := by simpa using hd
      simp [hd'.1.1.1, hd'.1.1.2, hd'.1.2, hd'.2]
    · cases h

/-- The rendered default album format `album ++ " (" ++ year ++ ")"` is
rejected by the album-directory pattern whenever the album part does not
itself begin with four digits. -/
theorem albumDirMatch_default_output_none (al y : List Char)
    (h : ¬(4 ≤ al.length ∧ (al.take 4).all isPyDigit = true)) :
    albumDirMatch (al ++ ' ' :: '(' :: (y ++ [')'])) = none := by
  cases hm : albumDirMatch (al ++ ' ' :: '(' :: (y ++ [')'])) with
  | none => rfl
  | some p =>
    exfalso
    obtain ⟨hlen, hall⟩ := albumDirMatch_four_digits (y := p.1) (g := p.2) (by rw [hm])
    by_cases hle : 4 ≤ al.length
    · rw [List.take_append_eq_append_take] at hall
      rw [show 4 - al.length = 0 by omega, List.take_zero, List.append_nil] at hall
      exact h ⟨hle, hall⟩
    · rw [List.take_append_eq_append_take] at hall
      rw [show 4 - al.length = (3 - al.length) + 1 by omega] at hall
      rw [List.take_succ_cons] at hall
      rw [List.all_append] at hall
      simp [isPyDigit] at hall

/-- Claim C5, counterexample: for the album directory name
`2001 - 1999 - Foo` (whose album part itself looks like a year-dash
prefix) the rename rule maps it to `1999 - Foo (2001)`, and applying the
album rule to that output matches again — a second run over the renamed
folder plans another action instead of zero. -/
theorem C5_counterexample :
    normalized_album_name "2001 - 1999 - Foo" defaultAlbumFormat
      = some "1999 - Foo (2001)"
    ∧ normalized_album_name "1999 - Foo (2001)" defaultAlbumFormat
      = some "Foo (2001) (1999)"
    ∧ gather_rename_actions [⟨["1999 - Foo (2001)"], true⟩]
        defaultAlbumFormat defaultTrackFormat
      = [⟨"dir", ["1999 - Foo (2001)"], ["Foo (2001) (1999)"]⟩] := by
  decide

/-- Claim C5, amended: for an album directory name matching
`YYYY - Name`, applying the album rule to the output of the default
format template yields no match — provided the extracted album name does
not itself begin with four digits (the counterexample shows the proviso
is needed); under that proviso a second run over the renamed folder
plans no album-directory action. -/
theorem C5_second_run_no_match :
    ∀ (name out : String) (y g : List Char),
      albumDirMatch name.toList = some (y, g) →
      normalized_album_name name defaultAlbumFormat = some out →
      ¬(4 ≤ (pyStrip ⟨g⟩).toList.length
          ∧ ((pyStrip ⟨g⟩).toList.take 4).all isPyDigit = true) →
      out = defaultAlbumFormat (pyStrip ⟨g⟩) ⟨y⟩
      ∧ normalized_album_name out defaultAlbumFormat = none := by
  intro name out y g h1 h2 hnd
  unfold normalized_album_name at h2
  rw [h1] at h2
  dsimp only at h2
  have hmatch : albumDirMatch out.toList = none := by
    have hsplit : out.toList
        = (pyStrip ⟨g⟩).toList ++ ' ' :: '(' :: ((⟨y⟩ : String).toList ++ [')']) := by
      split at h2
      · cases h2
        show (defaultAlbumFormat (pyStrip ⟨g⟩) ⟨y⟩).toList = _
        simp [defaultAlbumFormat, String.toList, String.data_append]
      · cases h2
    rw [hsplit]
    exact albumDirMatch_default_output_none _ _ hnd
  constructor
  · split at h2
    · cases h2
      rfl
    · cases h2
  · unfold normalized_album_name
    rw [hmatch]

/-- Claim C5, witness for the amended statement: `2001 - Discovery` is
renamed to `Discovery (2001)`, whose album part `Discovery` does not
begin with four digits, and the album rule indeed rejects the output. -/
theorem C5_second_run_no_match_witness :
    ("Discovery (2001)" : String)
      = defaultAlbumFormat (pyStrip ⟨"Discovery".toList⟩) ⟨"2001".toList⟩
    ∧ normalized_album_name "Discovery (2001)" defaultAlbumFormat = none :=
  C5_second_run_no_match "2001 - Discovery" "Discovery (2001)"
    "2001".toList "Discovery".toList (by decide) (by decide) (by decide)

/-- Code-point comparison of character lists is total. -/
theorem charListLe_total : ∀ a b : List Char, charListLe a b = true ∨ charListLe b a = true := by
  intro a
  induction a with
  | nil => intro b; left; rfl
  | cons x xs ih =>
    intro b
    cases b with
    | nil => right; rfl
    | cons y ys =>
      by_cases hxy : x = y
      · subst hxy
        rcases ih ys with h | h
        · left; simpa [charListLe] using h
        · right; simpa [charListLe] using h
      · rcases lt_trichotomy x y with h | h | h
        · left; simp [charListLe, hxy, h]
        · exact absurd h hxy
        · right; simp [charListLe, Ne.symm hxy, h]

/-- Code-point comparison of character lists is transitive. -/
theorem charListLe_trans :
    ∀ a b c : List Char, charListLe a b = true → charListLe b c = true → charListLe a c = true := by
  intro a
  induction a with
  | nil => intro b c _ _; rfl
  | cons x xs ih =>
    intro b c hab hbc
    cases b with
    | nil => simp [charListLe] at hab
    | cons y ys =>
      cases c with
      | nil => simp [charListLe] at hbc
      | cons z zs =>
        by_cases hxy : x = y <;> by_cases hyz : y = z
        · subst hxy; subst hyz
          simp only [charListLe, if_pos] at hab hbc ⊢
          exact ih ys zs hab hbc
        · subst hxy
          simp [charListLe] at hab
          simp [charListLe, hyz] at hbc ⊢
          exact hbc
        · subst hyz
          simp [charListLe, hxy] at hab ⊢
          exact hab
        · simp [charListLe, hxy] at hab
          simp [charListLe, hyz] at hbc
          have hxz : x < z := lt_trans hab hbc
          simp [charListLe, ne_of_lt hxz]
          exact hxz

instance : IsTotal RenameAction fileOrd :=
  ⟨fun a b => charListLe_total (pathStr a.source).toList (pathStr b.source).toList⟩

instance : IsTrans RenameAction fileOrd :=
  ⟨fun a b c => charListLe_trans (pathStr a.source).toList (pathStr b.source).toList
      (pathStr c.source).toList⟩

instance : IsTotal RenameAction dirOrd :=
  ⟨fun a b => Nat.le_total b.source.length a.source.length⟩

instance : IsTrans RenameAction dirOrd :=
  ⟨fun _ _ _ hab hbc => le_trans hbc hab⟩

/-- Members of the sorted file block have kind `"file"`. -/
theorem mem_file_block {actions : List RenameAction} {a : RenameAction}
    (h : a ∈ List.insertionSort fileOrd (actions.filter (fun x => x.kind == "file"))) :
    a.kind = "file" := by
  rw [List.mem_insertionSort] at h
  simpa using List.of_mem_filter h

/-- Members of the sorted directory block have kind `"dir"`. -/
theorem mem_dir_block {actions : List RenameAction} {a : RenameAction}
    (h : a ∈ List.insertionSort dirOrd (actions.filter (fun x => x.kind == "dir"))) :
    a.kind = "dir" := by
  rw [List.mem_insertionSort] at h
  simpa using List.of_mem_filter h

/-- Claim C1, counterexample to the universally quantified form: a tree
with two track files inside one to-be-renamed album directory satisfies
the claim's hypothesis (it contains file renames inside a directory that
is itself renamed, and the directory's action, which the directories-
first execution applies), yet executing the directory actions first
produces two "source missing" skips, not one. -/
theorem C1_counterexample :
    (⟨"file", ["2001 - A", "1 - t.flac"], ["2001 - A", "01 t.flac"]⟩ : RenameAction)
      ∈ gather_rename_actions
          [⟨["2001 - A"], true⟩, ⟨["2001 - A", "1 - t.flac"], false⟩,
           ⟨["2001 - A", "2 - u.flac"], false⟩] defaultAlbumFormat defaultTrackFormat
    ∧ (⟨"dir", ["2001 - A"], ["A (2001)"]⟩ : RenameAction)
      ∈ gather_rename_actions
          [⟨["2001 - A"], true⟩, ⟨["2001 - A", "1 - t.flac"], false⟩,
           ⟨["2001 - A", "2 - u.flac"], false⟩] defaultAlbumFormat defaultTrackFormat
    ∧ RenameEvent.applied ⟨"dir", ["2001 - A"], ["A (2001)"]⟩
      ∈ (apply_rename_actions_dirs_first
          [⟨["2001 - A"], true⟩, ⟨["2001 - A", "1 - t.flac"], false⟩,
           ⟨["2001 - A", "2 - u.flac"], false⟩]
          (gather_rename_actions
            [⟨["2001 - A"], true⟩, ⟨["2001 - A", "1 - t.flac"], false⟩,
             ⟨["2001 - A", "2 - u.flac"], false⟩] defaultAlbumFormat defaultTrackFormat)).log
    ∧ countSourceMissing
        (apply_rename_actions_dirs_first
          [⟨["2001 - A"], true⟩, ⟨["2001 - A", "1 - t.flac"], false⟩,
           ⟨["2001 - A", "2 - u.flac"], false⟩]
          (gather_rename_actions
            [⟨["2001 - A"], true⟩, ⟨["2001 - A", "1 - t.flac"], false⟩,
             ⟨["2001 - A", "2 - u.flac"], false⟩] defaultAlbumFormat defaultTrackFormat)).log
      = 2 := by
  decide

/-- Claim C1, amended: `apply_rename_actions` executes every file action
before any directory action, the file block sorted ascending by source
path string and the directory block sorted by segment count descending;
and for the exemplar tree with one track file inside one to-be-renamed
album directory, this order produces zero "source missing" skips while
executing the directory actions first produces one. -/
theorem C1_apply_ordering :
    (∀ actions : List RenameAction,
      (orderedRenameActions actions).Pairwise
        (fun a b => a.kind = "dir" → b.kind = "dir")
      ∧ (orderedRenameActions actions).Pairwise
        (fun a b => a.kind = "file" → b.kind = "file" → fileOrd a b)
      ∧ (orderedRenameActions actions).Pairwise
        (fun a b => a.kind = "dir" → b.kind = "dir" → dirOrd a b))
    ∧ countSourceMissing
        (apply_rename_actions [⟨["2001 - A"], true⟩, ⟨["2001 - A", "1 - t.flac"], false⟩]
          (gather_rename_actions
            [⟨["2001 - A"], true⟩, ⟨["2001 - A", "1 - t.flac"], false⟩]
            defaultAlbumFormat defaultTrackFormat)).log = 0
    ∧ countSourceMissing
        (apply_rename_actions_dirs_first
          [⟨["2001 - A"], true⟩, ⟨["2001 - A", "1 - t.flac"], false⟩]
          (gather_rename_actions
            [⟨["2001 - A"], true⟩, ⟨["2001 - A", "1 - t.flac"], false⟩]
            defaultAlbumFormat defaultTrackFormat)).log = 1 := by
  refine ⟨?_, by decide, by decide⟩
  intro actions
  refine ⟨?_, ?_, ?_⟩ <;> rw [orderedRenameActions, List.pairwise_append]
  · refine ⟨?_, ?_, ?_⟩
    · exact List.pairwise_of_forall_mem_list fun a ha b hb hd =>
        absurd (mem_file_block ha) (by rw [hd]; decide)
    · exact List.pairwise_of_forall_mem_list fun a _ b hb _ => mem_dir_block hb
    · exact fun a _ b hb _ => mem_dir_block hb
  · refine ⟨?_, ?_, ?_⟩
    · exact (List.sorted_insertionSort fileOrd _).imp fun h _ _ => h
    · exact List.pairwise_of_forall_mem_list fun a ha b _ hf =>
        absurd (mem_dir_block ha) (by rw [hf]; decide)
    · exact fun a _ b hb _ hbf => absurd (mem_dir_block hb) (by rw [hbf]; decide)
  · refine ⟨?_, ?_, ?_⟩
    · exact List.pairwise_of_forall_mem_list fun a ha b _ hd =>
        absurd (mem_file_block ha) (by rw [hd]; decide)
    · exact (List.sorted_insertionSort dirOrd _).imp fun h _ _ => h
    · exact fun a ha _ _ had _ => absurd (mem_file_block ha) (by rw [had]; decide)

end PrepFiles
